import Mathlib

/-!
Verification development for the SearchKicks repository (storage-ring beam
diagnostics toolkit).  The Python sources are shallowly embedded:

* `src/search_kicks/tools/io.py` — orbit record container (`OrbitData`),
  the `.npy` loader/saver, the MATLAB measurement-dump loader, the archiver
  client (`Archiver.read`, `Archiver.filter_camonitor`);
* `src/search_kicks/tools/matlab.py` — the legacy `load_timeanalys` loader;
* `src/search_kicks/core/get_kick.py` — the kick-localization algorithm.

Numeric arrays are embedded as lists of rationals (`ℚ`); the kick-localization
algorithm, whose arithmetic is real-valued, is embedded over an arbitrary
linear ordered field with the constant `np.pi`, the cosine function and the
least-squares fit `fit_sine` (whose source lives outside this repository's
`src/` tree) passed as parameters.  Python's `datetime` values are embedded as
records of calendar fields; text is embedded as `String` / `List Char`.
Fallible code returns `Except IoErr`.
-/

/-! ### Decimal digit text, mirroring the fixed-width fields of
`datetime.strftime` / `datetime.strptime` with the format strings of io.py -/

/-- Value of a decimal digit character, `none` for non-digits. -/
def digitVal (c : Char) : Option Nat :=
  if 48 ≤ c.toNat ∧ c.toNat ≤ 57 then some (c.toNat - 48) else none

/-- Character of a decimal digit (`d < 10`). -/
def charOfDigit (d : Nat) : Char := Char.ofNat (48 + d)

/-- Little-endian base-10 digits, structurally recursive on a fuel bound so
that concrete evaluations reduce in the kernel; agrees with
`Nat.digits 10`. -/
def digitsLE : Nat → Nat → List Nat
  | 0, _ => []
  | fuel + 1, n => if n = 0 then [] else n % 10 :: digitsLE fuel (n / 10)

/-- Little-endian base-10 digits of `n`. -/
def natDigits (n : Nat) : List Nat := digitsLE n n

theorem digitsLE_eq_digits (fuel : Nat) :
    ∀ n, n ≤ fuel → digitsLE fuel n = Nat.digits 10 n := by
  induction fuel with
  | zero =>
    intro n h
    have hn : n = 0 := by omega
    subst hn
    simp [digitsLE]
  | succ f ih =>
    intro n h
    by_cases hn : n = 0
    · subst hn; simp [digitsLE]
    · rw [digitsLE, if_neg hn]
      have hlt : n / 10 < n := Nat.div_lt_self (Nat.pos_of_ne_zero hn) (by norm_num)
      rw [ih (n / 10) (by omega),
        Nat.digits_def' (by norm_num : (1 : ℕ) < 10) (Nat.pos_of_ne_zero hn)]

theorem natDigits_eq (n : Nat) : natDigits n = Nat.digits 10 n :=
  digitsLE_eq_digits n n le_rfl

/-- Big-endian digit text of `n`, zero-padded on the left to width `w`
(the behaviour of `strftime` on the numeric fields it renders). -/
def padDigits (w n : Nat) : List Char :=
  List.replicate (w - (((natDigits n).reverse).map charOfDigit).length) '0'
    ++ ((natDigits n).reverse).map charOfDigit

def digitsToNatAux : Nat → List Char → Option Nat
  | acc, [] => some acc
  | acc, c :: cs =>
    match digitVal c with
    | some v => digitsToNatAux (10 * acc + v) cs
    | none => none

/-- Parse a non-empty all-digit character list as a decimal number. -/
def digitsToNat : List Char → Option Nat
  | [] => none
  | c :: cs =>
    match digitVal c with
    | some v => digitsToNatAux v cs
    | none => none

theorem digitVal_charOfDigit {d : Nat} (hd : d < 10) :
    digitVal (charOfDigit d) = some d := by
  interval_cases d <;> decide

theorem digitVal_isSome_of_mem_padDigits {w n : Nat} {c : Char}
    (hc : c ∈ padDigits w n) : (digitVal c).isSome = true := by
  unfold padDigits at hc
  rw [natDigits_eq] at hc
  rcases List.mem_append.mp hc with h | h
  · rw [List.eq_of_mem_replicate h]; decide
  · rcases List.mem_map.mp h with ⟨d, hdmem, rfl⟩
    have hlt : d < 10 := Nat.digits_lt_base (by norm_num) (List.mem_reverse.mp hdmem)
    rw [digitVal_charOfDigit hlt]; rfl

theorem digitsToNatAux_replicate_zero (j : Nat) (rest : List Char) :
    digitsToNatAux 0 (List.replicate j '0' ++ rest) = digitsToNatAux 0 rest := by
  induction j with
  | zero => rfl
  | succ k ih =>
    show digitsToNatAux 0 (('0' :: List.replicate k '0') ++ rest) = _
    simpa [digitsToNatAux, digitVal] using ih

theorem digitsToNatAux_digits (ds : List Nat) (acc : Nat)
    (h : ∀ x ∈ ds, x < 10) :
    digitsToNatAux acc (ds.map charOfDigit)
      = some (acc * 10 ^ ds.length + Nat.ofDigits 10 ds.reverse) := by
  induction ds generalizing acc with
  | nil => simp [digitsToNatAux, Nat.ofDigits]
  | cons x t ih =>
    have hx : x < 10 := h x (List.mem_cons_self x t)
    have ht : ∀ y ∈ t, y < 10 := fun y hy => h y (List.mem_cons_of_mem x hy)
    have hstep : digitsToNatAux acc ((x :: t).map charOfDigit)
        = digitsToNatAux (10 * acc + x) (t.map charOfDigit) := by
      show digitsToNatAux acc (charOfDigit x :: t.map charOfDigit) = _
      rw [digitsToNatAux, digitVal_charOfDigit hx]
    rw [hstep, ih (10 * acc + x) ht]
    have hrev : Nat.ofDigits 10 (x :: t).reverse
        = Nat.ofDigits 10 t.reverse + 10 ^ t.length * x := by
      rw [List.reverse_cons, Nat.ofDigits_append]
      simp [Nat.ofDigits, List.length_reverse]
    rw [hrev, List.length_cons]
    congr 1
    ring

theorem digitsToNat_eq_aux0 {L : List Char} (hL : L ≠ []) :
    digitsToNat L = digitsToNatAux 0 L := by
  cases L with
  | nil => exact absurd rfl hL
  | cons c cs =>
    rw [digitsToNat, digitsToNatAux]
    cases digitVal c <;> simp

theorem digitsToNat_padDigits (w n : Nat) (hw : 1 ≤ w) :
    digitsToNat (padDigits w n) = some n := by
  have hall : ∀ x ∈ (Nat.digits 10 n).reverse, x < 10 := fun x hx =>
    Nat.digits_lt_base (by norm_num) (List.mem_reverse.mp hx)
  have haux : digitsToNatAux 0 (((Nat.digits 10 n).reverse).map charOfDigit) = some n := by
    rw [digitsToNatAux_digits _ 0 hall, List.reverse_reverse, Nat.ofDigits_digits]
    norm_num
  unfold padDigits
  rw [natDigits_eq]
  rcases hk : w - (((Nat.digits 10 n).reverse).map charOfDigit).length with _ | k
  · -- no padding: since w ≥ 1, the digit text is non-empty
    have hlen : 1 ≤ (((Nat.digits 10 n).reverse).map charOfDigit).length := by omega
    have hne : (((Nat.digits 10 n).reverse).map charOfDigit) ≠ [] := by
      intro hnil; rw [hnil] at hlen; simp at hlen
    rw [show List.replicate 0 '0' = ([] : List Char) from rfl, List.nil_append,
      digitsToNat_eq_aux0 hne]
    exact haux
  · -- at least one leading zero
    have hne : (List.replicate (k + 1) '0'
        ++ ((Nat.digits 10 n).reverse).map charOfDigit) ≠ [] := by
      simp [List.replicate]
    rw [digitsToNat_eq_aux0 hne, digitsToNatAux_replicate_zero, haux]

/-! ### Python datetime values -/

/-- A `datetime.datetime` value: the tuple of its calendar fields. -/
structure PyDateTime where
  year : Nat
  month : Nat
  day : Nat
  hour : Nat
  minute : Nat
  second : Nat
  microsecond : Nat
deriving DecidableEq, Repr

/-- Gregorian leap-year test, as in Python's `calendar.isleap`. -/
def isLeap (y : Nat) : Bool :=
  y % 4 == 0 && (y % 100 != 0 || y % 400 == 0)

/-- Length of month `m` of year `y` (the datetime module's `_days_in_month`). -/
def daysInMonth (y m : Nat) : Nat :=
  if m = 2 then (if isLeap y then 29 else 28)
  else if m = 4 ∨ m = 6 ∨ m = 9 ∨ m = 11 then 30
  else 31

/-- The invariant of a constructed `datetime.datetime` object. -/
def ValidDate (d : PyDateTime) : Prop :=
  1 ≤ d.year ∧ d.year ≤ 9999 ∧ 1 ≤ d.month ∧ d.month ≤ 12 ∧
  1 ≤ d.day ∧ d.day ≤ daysInMonth d.year d.month ∧
  d.hour ≤ 23 ∧ d.minute ≤ 59 ∧ d.second ≤ 59 ∧ d.microsecond ≤ 999999

instance (d : PyDateTime) : Decidable (ValidDate d) := by
  unfold ValidDate; infer_instance

/-- Lexicographic strict order on equal-length tuples of naturals: Python's
comparison of `datetime` objects compares their field tuples this way. -/
def lexLtNat : List Nat → List Nat → Bool
  | _, [] => false
  | [], _ :: _ => true
  | a :: as, b :: bs => if a < b then true else if a = b then lexLtNat as bs else false

def PyDateTime.fieldList (d : PyDateTime) : List Nat :=
  [d.year, d.month, d.day, d.hour, d.minute, d.second, d.microsecond]

/-- Python's `d1 < d2` on datetimes. -/
def dtLt (a b : PyDateTime) : Bool := lexLtNat a.fieldList b.fieldList

/-! ### Proleptic Gregorian ordinals and ISO calendar weeks, following the
CPython `datetime` implementation (`_ymd2ord`, `_isoweek1monday`,
`isocalendar`).  These are needed by `Archiver.read`'s week test. -/

/-- Days in the years before year `y` (CPython `_days_before_year`). -/
def daysBeforeYear (y : Nat) : Int :=
  365 * ((y : Int) - 1) + ((y : Int) - 1) / 4 - ((y : Int) - 1) / 100
    + ((y : Int) - 1) / 400

/-- Days in year `y` before month `m` (CPython `_days_before_month`). -/
def daysBeforeMonth (y m : Nat) : Nat :=
  (match m with
   | 1 => 0 | 2 => 31 | 3 => 59 | 4 => 90 | 5 => 120 | 6 => 151
   | 7 => 181 | 8 => 212 | 9 => 243 | 10 => 273 | 11 => 304 | _ => 334)
  + (if 2 < m ∧ isLeap y then 1 else 0)

/-- Proleptic Gregorian ordinal of a date; day 1 is 0001-01-01
(CPython `_ymd2ord`). -/
def ymd2ord (y m d : Nat) : Int :=
  daysBeforeYear y + (daysBeforeMonth y m : Int) + (d : Int)

/-- Ordinal of the Monday starting ISO week 1 of year `y`
(CPython `_isoweek1monday`). -/
def isoweek1monday (y : Nat) : Int :=
  let firstday := ymd2ord y 1 1
  let firstweekday := (firstday + 6) % 7
  let week1monday := firstday - firstweekday
  if 3 < firstweekday then week1monday + 7 else week1monday

/-- ISO calendar week number of a date: the second component of Python's
`date.isocalendar()` (CPython's algorithm; divisions are floor divisions). -/
def isocalendarWeek (y m d : Nat) : Nat :=
  let today := ymd2ord y m d
  let week := Int.fdiv (today - isoweek1monday y) 7
  if week < 0 then
    (Int.fdiv (today - isoweek1monday (y - 1)) 7 + 1).toNat
  else if 52 ≤ week ∧ isoweek1monday (y + 1) ≤ today then 1
  else (week + 1).toNat

/-- The `isocalendar()[1]` of a datetime, as used by `Archiver.read`. -/
def isoWeekNum (d : PyDateTime) : Nat := isocalendarWeek d.year d.month d.day

/-! ### Timestamp text: `strftime`/`strptime` with io.py's format strings
`"%Y-%m-%dT%H:%M:%S.%f"` (`DATETIME_ISO`), `"%Y-%m-%d %H:%M:%S.%f"`
(`filter_camonitor`) and `"%Y-%m-%d %H:%M:%S"` (`Archiver.read`). -/

/-- Scan up to the first occurrence of `sep`; return the text before it and
the text after it.  `none` when `sep` does not occur. -/
def readField (sep : Char) : List Char → Option (List Char × List Char)
  | [] => none
  | c :: cs =>
    if c = sep then some ([], cs)
    else (readField sep cs).map (fun p => (c :: p.1, p.2))

/-- Render with `mid` between date and time: the two `.%f` format strings
above differ only in this separator (`'T'` vs `' '`). -/
def formatStamp (mid : Char) (d : PyDateTime) : List Char :=
  padDigits 4 d.year ++ '-' ::
    (padDigits 2 d.month ++ '-' ::
      (padDigits 2 d.day ++ mid ::
        (padDigits 2 d.hour ++ ':' ::
          (padDigits 2 d.minute ++ ':' ::
            (padDigits 2 d.second ++ '.' :: padDigits 6 d.microsecond)))))

/-- Parse a timestamp with microseconds; mirrors `datetime.strptime` with the
two `.%f` formats above, including the datetime constructor's field
validation. -/
def parseStamp (mid : Char) (l : List Char) : Option PyDateTime :=
  match readField '-' l with
  | none => none
  | some (ys, r1) =>
    match digitsToNat ys with
    | none => none
    | some y =>
      match readField '-' r1 with
      | none => none
      | some (ms, r2) =>
        match digitsToNat ms with
        | none => none
        | some mo =>
          match readField mid r2 with
          | none => none
          | some (ds, r3) =>
            match digitsToNat ds with
            | none => none
            | some dy =>
              match readField ':' r3 with
              | none => none
              | some (hs, r4) =>
                match digitsToNat hs with
                | none => none
                | some hr =>
                  match readField ':' r4 with
                  | none => none
                  | some (mis, r5) =>
                    match digitsToNat mis with
                    | none => none
                    | some mi =>
                      match readField '.' r5 with
                      | none => none
                      | some (ss, r6) =>
                        match digitsToNat ss with
                        | none => none
                        | some s =>
                          match digitsToNat r6 with
                          | none => none
                          | some us =>
                            if 1 ≤ y ∧ y ≤ 9999 ∧ 1 ≤ mo ∧ mo ≤ 12 ∧
                               1 ≤ dy ∧ dy ≤ daysInMonth y mo ∧
                               hr ≤ 23 ∧ mi ≤ 59 ∧ s ≤ 59 ∧ us ≤ 999999 then
                              some ⟨y, mo, dy, hr, mi, s, us⟩
                            else none

/-- The module constant `DATETIME_ISO = "%Y-%m-%dT%H:%M:%S.%f"`, rendering. -/
def formatIsoDate (d : PyDateTime) : List Char := formatStamp 'T' d

/-- The module constant `DATETIME_ISO`, parsing. -/
def parseIsoDate (l : List Char) : Option PyDateTime := parseStamp 'T' l

/-- The `"%Y-%m-%d %H:%M:%S"` rendering used for the archiver query. -/
def fmtArchDate (d : PyDateTime) : List Char :=
  padDigits 4 d.year ++ '-' ::
    (padDigits 2 d.month ++ '-' ::
      (padDigits 2 d.day ++ ' ' ::
        (padDigits 2 d.hour ++ ':' ::
          (padDigits 2 d.minute ++ ':' :: padDigits 2 d.second))))

theorem digit_ne_char {c s : Char} (h : (digitVal c).isSome = true)
    (hs : s.toNat < 48 ∨ 57 < s.toNat) : c ≠ s := by
  unfold digitVal at h
  split at h
  · rename_i hc
    intro hcs
    subst hcs
    omega
  · simp at h

theorem readField_append (sep : Char) (pre rest : List Char)
    (h : ∀ c ∈ pre, c ≠ sep) :
    readField sep (pre ++ sep :: rest) = some (pre, rest) := by
  induction pre with
  | nil => simp [readField]
  | cons c cs ih =>
    have hc : c ≠ sep := h c (List.mem_cons_self c cs)
    have hcs : ∀ x ∈ cs, x ≠ sep := fun x hx => h x (List.mem_cons_of_mem c hx)
    show readField sep (c :: (cs ++ sep :: rest)) = _
    rw [readField, if_neg hc, ih hcs]
    rfl

theorem readField_pad (sep : Char) (hs : sep.toNat < 48 ∨ 57 < sep.toNat)
    (w n : Nat) (rest : List Char) :
    readField sep (padDigits w n ++ sep :: rest) = some (padDigits w n, rest) :=
  readField_append sep _ rest
    (fun c hc => digit_ne_char (digitVal_isSome_of_mem_padDigits hc) hs)

theorem parseStamp_formatStamp (mid : Char)
    (hmid : mid.toNat < 48 ∨ 57 < mid.toNat) (d : PyDateTime)
    (hd : ValidDate d) : parseStamp mid (formatStamp mid d) = some d := by
  have hdash : ('-').toNat < 48 ∨ 57 < ('-').toNat := by decide
  have hcolon : (':').toNat < 48 ∨ 57 < (':').toNat := by decide
  have hdot : ('.').toNat < 48 ∨ 57 < ('.').toNat := by decide
  unfold formatStamp parseStamp
  simp only [readField_pad '-' hdash, readField_pad mid hmid,
    readField_pad ':' hcolon, readField_pad '.' hdot,
    digitsToNat_padDigits 4 d.year (by norm_num),
    digitsToNat_padDigits 2 d.month (by norm_num),
    digitsToNat_padDigits 2 d.day (by norm_num),
    digitsToNat_padDigits 2 d.hour (by norm_num),
    digitsToNat_padDigits 2 d.minute (by norm_num),
    digitsToNat_padDigits 2 d.second (by norm_num),
    digitsToNat_padDigits 6 d.microsecond (by norm_num)]
  unfold ValidDate at hd
  rw [if_pos hd]

theorem parseIsoDate_formatIsoDate (d : PyDateTime) (hd : ValidDate d) :
    parseIsoDate (formatIsoDate d) = some d :=
  parseStamp_formatStamp 'T' (by decide) d hd

/-! ### The orbit record container (`io.py`, class `OrbitData`) -/

/-- Errors raised by the embedded io.py code.  Constructors are named by what
the corresponding Python exception reports: `missingField` is the
`ValueError("... is key missing")` of the measurement-dump key loop, while
`keyLookup` is a bare `KeyError` from a dict subscript; `broadcastErr` is the
numpy shape error of an array-slice assignment; `indexErr` a bare
`IndexError`; `parseErr` a `strptime` failure. -/
inductive IoErr where
  | typeMismatch (field : String)
  | shapeMismatch (field : String)
  | inconsistentSampleCount (field : String) (found expected : Nat)
  | missingVersion
  | unsupportedVersion (v : String)
  | missingField (key : String)
  | keyLookup (key : String)
  | indexErr
  | broadcastErr
  | parseErr
  | invalidRange (what : String)
  | attributeErr
deriving DecidableEq, Repr

instance exceptDecEq {e a : Type} [DecidableEq e] [DecidableEq a] :
    DecidableEq (Except e a) := fun x y =>
  match x, y with
  | Except.error u, Except.error v =>
    if h : u = v then Decidable.isTrue (congrArg Except.error h)
    else Decidable.isFalse (fun hc => h (Except.error.inj hc))
  | Except.ok u, Except.ok v =>
    if h : u = v then Decidable.isTrue (congrArg Except.ok h)
    else Decidable.isFalse (fun hc => h (Except.ok.inj hc))
  | Except.error _, Except.ok _ => Decidable.isFalse (fun hc => Except.noConfusion hc)
  | Except.ok _, Except.error _ => Decidable.isFalse (fun hc => Except.noConfusion hc)

/-- A per-sample column of channel readings (one cell of the dump's object
arrays, `cell[:, 0]` in the loaders). -/
abbrev Col := List ℚ

/-- A channel-group array.  The loaders build these column-wise, so a matrix
is embedded as its list of per-sample columns (`mat[:, i]` is `mat[i]` here,
entry `mat[j, i]` of the Python array is `(mat[i])[j]`). -/
abbrev Cells := List Col

/-- A Python value handed to the `OrbitData` constructor: a 2-dimensional
numpy array (the only kind the repository ever passes). -/
inductive PyVal where
  | arr (m : Cells)
deriving DecidableEq, Repr

/-- A measure-date value: either a parsed `datetime` (npy loader) or, for
the measurement-dump loader, the header's creation-date text (standing for
the `strptime`-parsed datetime; the parse itself does not affect any claim
about this loader). -/
inductive DateVal where
  | dt (d : PyDateTime)
  | raw (s : String)
deriving DecidableEq, Repr

/-- The orbit record, fields as assigned at the end of
`OrbitData.__init__`. -/
structure OrbitData where
  BPMx : Option PyVal
  BPMy : Option PyVal
  CMx : Option PyVal
  CMy : Option PyVal
  sampling_frequency : Option ℚ
  sample_number : Nat
  measure_date : Option DateVal
deriving DecidableEq, Repr

/-- The inner function `check_single_arrays(name, item)` of
`OrbitData.__init__` (io.py lines 92-106).  The source reads
`if item is not None: return`, so every provided (non-None) value returns
immediately and is never validated; when `item` is None, the guard
`type(item) is not np.ndarray or type(item) is not np.ndarray` is true
(both operands are the same expression) and a `TypeError` is raised, so the
`ndim` check and the sample-count comparison below it are unreachable —
and `sample_nb` is in any case never assigned, remaining 0. -/
def check_single_arrays (name : String) (item : Option PyVal) : Except IoErr Unit :=
  match item with
  | some _ => Except.ok ()
  | none => Except.error (IoErr.typeMismatch name)

/-- The constructor `OrbitData.__init__` (io.py lines 87-119): run
`check_single_arrays` on the four channel groups in order, then assign the
fields; `sample_number` is assigned from the local `sample_nb`, which is
initialized to 0 and never updated. -/
def OrbitData.init (BPMx BPMy CMx CMy : Option PyVal)
    (sampling_frequency : Option ℚ) (measure_date : Option DateVal) :
    Except IoErr OrbitData :=
  match check_single_arrays "BPMx" BPMx with
  | Except.error e => Except.error e
  | Except.ok _ =>
    match check_single_arrays "BPMy" BPMy with
    | Except.error e => Except.error e
    | Except.ok _ =>
      match check_single_arrays "CMx" CMx with
      | Except.error e => Except.error e
      | Except.ok _ =>
        match check_single_arrays "CMy" CMy with
        | Except.error e => Except.error e
        | Except.ok _ =>
          Except.ok { BPMx := BPMx, BPMy := BPMy, CMx := CMx, CMy := CMy,
                      sampling_frequency := sampling_frequency,
                      sample_number := 0, measure_date := measure_date }

/-! ### String splitting helpers (Python `str.split`) -/

/-- Fuelled worker for `str.split(sep)` with a non-empty separator. -/
def splitAux (sep : List Char) : Nat → List Char → List Char → List (List Char)
  | 0, _, acc => [acc.reverse]
  | fuel + 1, l, acc =>
    if sep.isPrefixOf l then
      acc.reverse :: splitAux sep fuel (l.drop sep.length) []
    else
      match l with
      | [] => [acc.reverse]
      | c :: cs => splitAux sep fuel cs (c :: acc)

/-- Python's `s.split(sep)` for a non-empty separator `sep`: non-overlapping
splits, keeping empty parts. -/
def pySplit (sep s : String) : List String :=
  (splitAux sep.data (s.data.length + 1) s.data []).map String.mk

/-! ### The measurement-dump loader (`io.py`, `load_orbit_dump`) and its
legacy counterpart (`matlab.py`, `load_timeanalys`) -/

/-- The dict returned by `scipy.io.loadmat` on a measurement dump, restricted
to the keys the two loaders touch.  A `none` field is an absent key.  Each
object array of shape `(1, n)` is embedded as the list of its cells, each
cell as its first column (the only thing either loader reads of a cell). -/
structure MatDump where
  difforbitX : Option Cells
  difforbitY : Option Cells
  CMx : Option Cells
  CMy : Option Cells
  version : Option String
  header : Option String
deriving DecidableEq, Repr

/-- Length of `cells[0]` (`cells[0, 0].shape[0]` in the sources);
`none` is the `IndexError` of indexing an empty object array. -/
def headLen (c : Cells) : Option Nat := c.head?.map List.length

/-- The numpy slice assignment `out[:, i] = cell` for a target column of
length `n`: a cell of exactly length `n` is assigned as is; a single-entry
cell is broadcast, its entry filling the whole column; any other length
raises the numpy broadcast `ValueError` (`none` here). -/
def broadcastCol (a : Col) (n : Nat) : Option Col :=
  if a.length = n then some a
  else
    match a with
    | [v] => some (List.replicate n v)
    | _ => none

/-- The per-sample loop of `load_orbit_dump` (io.py lines 275-279): for each
sample index, assign column `i` of each of the four output arrays from cell
`i` of the corresponding group (`out[:, i] = cell[:, 0]`).  A missing cell
is an `IndexError`; the slice assignment follows numpy broadcasting
(`broadcastCol`), so a single-row cell is accepted and its entry
replicated down the column.  Groups are visited in source order within
each iteration. -/
def dumpCols : Nat → Cells → Cells → Cells → Cells → Nat → Nat → Nat → Nat →
    Except IoErr (Cells × Cells × Cells × Cells)
  | 0, _, _, _, _, _, _, _, _ => Except.ok ([], [], [], [])
  | n + 1, cx, cy, cu, cv, nx, ny, nu, nv =>
    match cx with
    | [] => Except.error IoErr.indexErr
    | a :: cxs =>
      match broadcastCol a nx with
      | none => Except.error IoErr.broadcastErr
      | some colA =>
        match cy with
        | [] => Except.error IoErr.indexErr
        | b :: cys =>
          match broadcastCol b ny with
          | none => Except.error IoErr.broadcastErr
          | some colB =>
            match cu with
            | [] => Except.error IoErr.indexErr
            | u :: cus =>
              match broadcastCol u nu with
              | none => Except.error IoErr.broadcastErr
              | some colU =>
                match cv with
                | [] => Except.error IoErr.indexErr
                | w :: cvs =>
                  match broadcastCol w nv with
                  | none => Except.error IoErr.broadcastErr
                  | some colW =>
                    match dumpCols n cxs cys cus cvs nx ny nu nv with
                    | Except.error e => Except.error e
                    | Except.ok (r1, r2, r3, r4) =>
                      Except.ok (colA :: r1, colB :: r2, colU :: r3, colW :: r4)

/-- The per-sample loop of `load_timeanalys` (matlab.py lines 25-33): the
same reconstruction, but element by element — for each sample `i` and each
channel `j < nb`, copy `cell[j, 0]`.  A cell shorter than `nb` is an
`IndexError`; a longer cell has its extra rows ignored (`List.take`). -/
def timeCols : Nat → Cells → Cells → Cells → Cells → Nat → Nat → Nat → Nat →
    Except IoErr (Cells × Cells × Cells × Cells)
  | 0, _, _, _, _, _, _, _, _ => Except.ok ([], [], [], [])
  | n + 1, cx, cy, cu, cv, nx, ny, nu, nv =>
    match cx with
    | [] => Except.error IoErr.indexErr
    | a :: cxs =>
      if nx ≤ a.length then
        match cy with
        | [] => Except.error IoErr.indexErr
        | b :: cys =>
          if ny ≤ b.length then
            match cu with
            | [] => Except.error IoErr.indexErr
            | u :: cus =>
              if nu ≤ u.length then
                match cv with
                | [] => Except.error IoErr.indexErr
                | w :: cvs =>
                  if nv ≤ w.length then
                    match timeCols n cxs cys cus cvs nx ny nu nv with
                    | Except.error e => Except.error e
                    | Except.ok (r1, r2, r3, r4) =>
                      Except.ok (a.take nx :: r1, b.take ny :: r2,
                                 u.take nu :: r3, w.take nv :: r4)
                  else Except.error IoErr.indexErr
              else Except.error IoErr.indexErr
          else Except.error IoErr.indexErr
      else Except.error IoErr.indexErr

/-- `load_orbit_dump` (io.py lines 227-288).  In source order: the
`'__version__' not in data` branch only prints a warning, after which
`data['__version__']` raises a bare `KeyError` when the key is absent; an
unknown version raises `NotImplementedError`; then the key loop raises the
"is key missing" `ValueError` for the first absent key; then the creation
date is cut out of the header after the literal `"Created on: "`
(`split(...)[1]`, an `IndexError` when the marker is absent); then shapes
are read and the dense arrays rebuilt; finally the `OrbitData` constructor
is called with `sampling_frequency=150`.  The `strptime` of the date text
is kept as the raw text (`DateVal.raw`); no claim depends on it. -/
def load_orbit_dump (d : MatDump) : Except IoErr OrbitData :=
  match d.version with
  | none => Except.error (IoErr.keyLookup "__version__")
  | some v =>
    if v = "1.0" then
      match d.difforbitX with
      | none => Except.error (IoErr.missingField "difforbitX")
      | some cx =>
        match d.difforbitY with
        | none => Except.error (IoErr.missingField "difforbitY")
        | some cy =>
          match d.CMx with
          | none => Except.error (IoErr.missingField "CMx")
          | some cu =>
            match d.CMy with
            | none => Except.error (IoErr.missingField "CMy")
            | some cv =>
              match d.header with
              | none => Except.error (IoErr.missingField "__header__")
              | some hdr =>
                match pySplit "Created on: " hdr with
                | _ :: dateStr :: _ =>
                  match headLen cx with
                  | none => Except.error IoErr.indexErr
                  | some nx =>
                    match headLen cy with
                    | none => Except.error IoErr.indexErr
                    | some ny =>
                      match headLen cu with
                      | none => Except.error IoErr.indexErr
                      | some nu =>
                        match headLen cv with
                        | none => Except.error IoErr.indexErr
                        | some nv =>
                          match dumpCols cx.length cx cy cu cv nx ny nu nv with
                          | Except.error e => Except.error e
                          | Except.ok (m1, m2, m3, m4) =>
                            OrbitData.init
                              (some (PyVal.arr m1)) (some (PyVal.arr m2))
                              (some (PyVal.arr m3)) (some (PyVal.arr m4))
                              (some 150) (some (DateVal.raw dateStr))
                | _ => Except.error IoErr.indexErr
    else Except.error (IoErr.unsupportedVersion v)

/-- `load_timeanalys` (matlab.py lines 11-35): no key or version validation —
an absent key is a bare `KeyError`; shapes are read in source order
(`difforbitX` with its first cell, then `difforbitY`, `CMx`, `CMy`), then
the four raw arrays are rebuilt by nested iteration and returned directly. -/
def load_timeanalys (d : MatDump) :
    Except IoErr (Cells × Cells × Cells × Cells) :=
  match d.difforbitX with
  | none => Except.error (IoErr.keyLookup "difforbitX")
  | some cx =>
    match headLen cx with
    | none => Except.error IoErr.indexErr
    | some nx =>
      match d.difforbitY with
      | none => Except.error (IoErr.keyLookup "difforbitY")
      | some cy =>
        match headLen cy with
        | none => Except.error IoErr.indexErr
        | some ny =>
          match d.CMx with
          | none => Except.error (IoErr.keyLookup "CMx")
          | some cu =>
            match headLen cu with
            | none => Except.error IoErr.indexErr
            | some nu =>
              match d.CMy with
              | none => Except.error (IoErr.keyLookup "CMy")
              | some cv =>
                match headLen cv with
                | none => Except.error IoErr.indexErr
                | some nv =>
                  timeCols cx.length cx cy cu cv nx ny nu nv

/-! ### The array-archive (`.npy`) saver and loader -/

/-- The dict that `save_orbit_npy` stores (io.py lines 170-182).  The version
tag is kept optional so that a file lacking it (the `MissingVersion` branch
of the loader) is representable; the saver always writes `"1.0"`. -/
structure NpyRecord where
  BPMx : Option PyVal
  BPMy : Option PyVal
  CMx : Option PyVal
  CMy : Option PyVal
  sampling_frequency : Option ℚ
  data_structure : String
  measure_date : List Char
  version : Option String
deriving DecidableEq, Repr

/-- `save_orbit_npy` (io.py lines 170-182): build the dict — with
`measure_date` rendered by `strftime(DATETIME_ISO)`, which is an
`AttributeError` unless the record's `measure_date` is a datetime — and
`np.save` it wrapped in a one-element list.  The file is embedded as the
saved list itself (`np.save`/`np.load` round-trip values exactly). -/
def save_orbit_npy (obj : OrbitData) : Except IoErr (List NpyRecord) :=
  match obj.measure_date with
  | some (DateVal.dt dt) =>
    Except.ok [{ BPMx := obj.BPMx, BPMy := obj.BPMy,
                 CMx := obj.CMx, CMy := obj.CMy,
                 sampling_frequency := obj.sampling_frequency,
                 data_structure := "array[item, time_sample]",
                 measure_date := formatIsoDate dt,
                 version := some "1.0" }]
  | _ => Except.error IoErr.attributeErr

/-- `load_orbit_npy` (io.py lines 142-167): `np.load(...)[0]` (an
`IndexError` on an empty archive), then the version gate (`ValueError` when
absent, `NotImplementedError` when not `'1.0'`), then construct the record
with the `strptime`-parsed measure date. -/
def load_orbit_npy (file : List NpyRecord) : Except IoErr OrbitData :=
  match file with
  | [] => Except.error IoErr.indexErr
  | data :: _ =>
    match data.version with
    | none => Except.error IoErr.missingVersion
    | some v =>
      if v = "1.0" then
        match parseIsoDate data.measure_date with
        | none => Except.error IoErr.parseErr
        | some dt =>
          OrbitData.init data.BPMx data.BPMy data.CMx data.CMy
            data.sampling_frequency (some (DateVal.dt dt))
      else Except.error (IoErr.unsupportedVersion v)

/-! ### The archiver client (`io.py`, class `Archiver`) -/

/-- The `var` argument of `Archiver.read`: a single process-variable name or
a list of names (the source inspects `type(var) is list`). -/
inductive VarArg where
  | one (s : String)
  | many (l : List String)
deriving DecidableEq, Repr

/-- The query `Archiver.read` assembles for its HTTP GET (the `data_dict` of
io.py lines 358-365); the network call itself is outside this system. -/
structure ArchRequest where
  index : String
  command : String
  strstart : Nat
  startstr : List Char
  strend : Nat
  endstr : List Char
  names : String
deriving DecidableEq, Repr

/-- The success value of `Archiver.read` before the HTTP call (io.py lines
348-365): the week test `now.isocalendar()[1] == t0.isocalendar()[1]`
compares the ISO week numbers only — the year components are not compared —
and selects the current-week index on equality; a list of names is joined
with newlines. -/
def buildRequest (now : PyDateTime) (var : VarArg) (t0 t1 : PyDateTime) :
    ArchRequest :=
  let same_week := isoWeekNum now = isoWeekNum t0
  { index := if same_week then "/opt/Archive/current_week/index"
             else "/opt/Archive/master_index",
    command := "camonitor",
    strstart := 1,
    startstr := fmtArchDate t0,
    strend := 1,
    endstr := fmtArchDate t1,
    names := match var with
             | VarArg.one s => s
             | VarArg.many l => String.intercalate "\n" l }

/-- `Archiver.read` (io.py lines 331-368) up to the HTTP GET: default the
end time to the start time, reject `t0 > t1` and an end time after the
current wall clock `now` (passed explicitly here, for `datetime.now()`),
then build the request.  The `datetime` type test on the arguments is
enforced by this embedding's types. -/
def Archiver.read (now : PyDateTime) (var : VarArg) (t0 : PyDateTime)
    (t1opt : Option PyDateTime) : Except IoErr ArchRequest :=
  let t1 := t1opt.getD t0
  if dtLt t1 t0 then Except.error (IoErr.invalidRange "end before start")
  else if dtLt now t1 then Except.error (IoErr.invalidRange "end in future")
  else Except.ok (buildRequest now var t0 t1)

/-! ### The archiver response parser (`Archiver.filter_camonitor`) -/

/-- An element of a value list in the parser's accumulator: the source
appends the raw text token `l[3]` (`PVal.str`); a numeric value
(`PVal.num`) is what the specification's "converted to numeric" would
produce. -/
inductive PVal where
  | str (s : String)
  | num (q : ℚ)
deriving DecidableEq, Repr

/-- `PVal.num` recognizer. -/
def isNumVal : PVal → Bool
  | PVal.num _ => true
  | PVal.str _ => false

/-- `PVal.str` recognizer. -/
def isStrVal : PVal → Bool
  | PVal.str _ => true
  | PVal.num _ => false

/-- One variable's pair of parallel arrays in the parser's result
(`values[key]['value']`, `values[key]['time']`). -/
structure CamEntry where
  value : List PVal
  time : List PyDateTime
deriving DecidableEq, Repr

/-- Python whitespace test for `str.split()` with no argument. -/
def isSpaceChar (c : Char) : Bool :=
  c = ' ' || c = '\t' || c = '\n' || c = '\r'

/-- Python's `line.split()`: split on runs of whitespace, dropping empty
tokens. -/
def wsSplit : List Char → List Char → List (List Char)
  | [], acc => if acc.isEmpty then [] else [acc.reverse]
  | c :: cs, acc =>
    if isSpaceChar c then
      if acc.isEmpty then wsSplit cs [] else acc.reverse :: wsSplit cs []
    else wsSplit cs (c :: acc)

/-- Insert one sample into the accumulator dict (io.py lines 319-323):
create the key's empty entry on first sight (Python dicts preserve
insertion order), then append value and time to its lists. -/
def addEntry (m : List (String × CamEntry)) (k : String) (v : PVal)
    (t : PyDateTime) : List (String × CamEntry) :=
  if m.any (fun p => p.1 == k) then
    m.map (fun p => if p.1 == k
      then (p.1, { value := p.2.value ++ [v], time := p.2.time ++ [t] })
      else p)
  else m ++ [(k, { value := [v], time := [t] })]

/-- The per-line body of `filter_camonitor`'s loop (io.py lines 311-323):
whitespace-tokenize, take `l[0]` as the name and `l[3]` as the value text
(fewer than four tokens is an `IndexError`), parse `l[1] + " " + l[2]`
with `"%Y-%m-%d %H:%M:%S.%f"`, and insert. -/
def procLine (m : List (String × CamEntry)) (line : String) :
    Except IoErr (List (String × CamEntry)) :=
  match (wsSplit line.data []).map String.mk with
  | k :: date :: time :: value :: _ =>
    match parseStamp ' ' (date.data ++ ' ' :: time.data) with
    | none => Except.error IoErr.parseErr
    | some t => Except.ok (addEntry m k (PVal.str value) t)
  | _ => Except.error IoErr.indexErr

/-- The loop of `filter_camonitor` over `datalist[:-1]`. -/
def procLines (m : List (String × CamEntry)) :
    List String → Except IoErr (List (String × CamEntry))
  | [] => Except.ok m
  | line :: rest =>
    match procLine m line with
    | Except.error e => Except.error e
    | Except.ok m2 => procLines m2 rest

/-- The final `np.array(...)` pass of `filter_camonitor` (io.py lines
326-327): `np.array` applied to a Python list of `str` tokens is an array
of those same strings — the elements are not converted to numbers. -/
def npArrayOfStrList (l : List PVal) : List PVal := l

/-- `Archiver.filter_camonitor` (io.py lines 305-329): split the decoded
body on `"\t\n"`, drop the final (empty) part, run the accumulation loop,
then wrap each value list with `np.array`. -/
def filter_camonitor (body : String) : Except IoErr (List (String × CamEntry)) :=
  match procLines [] (pySplit "\t\n" body).dropLast with
  | Except.error e => Except.error e
  | Except.ok m =>
    Except.ok (m.map (fun p =>
      (p.1, { value := npArrayOfStrList p.2.value, time := p.2.time })))

/-! ### The kick-localization algorithm (`core/get_kick.py`)

The algorithm's arithmetic is real-valued; it is embedded over an arbitrary
linear ordered field `K` with three parameters standing for the pieces
outside this file's scope: `piv` for the constant `np.pi`, `cosf` for
`np.cos`, and `fs` for `search_kicks.tools.maths.fit_sine` (whose defining
module is not part of this repository's `src/` tree; only its call sites
are embedded).  `fs` returns the pair `(b, c)` — `fit_sine`'s incidental
offset term is discarded by the caller (`_, b, c = fit_sine(...)`). -/

/-- Python's `int()` applied to a real quantity: truncation toward zero
(`get_kick.py` line 64, `k = int((apriori_phase + c)/np.pi + tune)`). -/
def truncInt {K : Type} [LinearOrderedField K] [FloorRing K] (x : K) : ℤ :=
  if 0 ≤ x then ⌊x⌋ else ⌈x⌉

/-- The doubled amplitude sequence `signal_exp` (line 41). -/
def signalExp {K : Type} (orbit : List K) : List K := orbit ++ orbit

/-- The doubled phase sequence `phase_exp` (line 42): the second copy is
shifted by `tune * 2 * pi`. -/
def phaseExp {K : Type} [LinearOrderedField K] (piv : K) (phase : List K)
    (tune : K) : List K :=
  phase ++ phase.map (fun p => p + tune * (2 * piv))

/-- The window `signal_exp[i:i+bpm_nb]` (line 47). -/
def windowSig {K : Type} (orbit : List K) (i : Nat) : List K :=
  ((signalExp orbit).drop i).take orbit.length

/-- The window `phase_exp[i:i+bpm_nb]` (line 48). -/
def windowPh {K : Type} [LinearOrderedField K] (piv : K)
    (orbit phase : List K) (tune : K) (i : Nat) : List K :=
  ((phaseExp piv phase tune).drop i).take orbit.length

/-- The fitted pair `cos_coefficients[i]` (lines 49-50). -/
def fitAt {K : Type} [LinearOrderedField K] (piv : K)
    (fs : List K → List K → K × K) (orbit phase : List K) (tune : K)
    (i : Nat) : K × K :=
  fs (windowSig orbit i) (windowPh piv orbit phase tune i)

/-- The window's residual `sum(pow(y - signal_t, 2))` with
`y = b*cos(c + phase_t)` (lines 52-56). -/
def rmsAt {K : Type} [LinearOrderedField K] (piv : K) (cosf : K → K)
    (fs : List K → List K → K × K) (orbit phase : List K) (tune : K)
    (i : Nat) : K :=
  let bc := fitAt piv fs orbit phase tune i
  (((windowPh piv orbit phase tune i).zip (windowSig orbit i)).map
    (fun pq => (bc.1 * cosf (bc.2 + pq.1) - pq.2) ^ 2)).sum

/-- One iteration of the minimum tracking (lines 58-60):
`if rms < best_rms or i == 0`. -/
def scanStep {K : Type} [LinearOrder K] (f : Nat → K) (st : K × Nat)
    (i : Nat) : K × Nat :=
  if f i < st.1 ∨ i = 0 then (f i, i) else st

/-- The scan over `range(bpm_nb)` with `best_rms` initialized to 0; the
value at index 0 is always taken (the `i == 0` disjunct). -/
def scanBest {K : Type} [LinearOrder K] [Zero K] (f : Nat → K) (N : Nat) : K × Nat :=
  (List.range N).foldl (scanStep f) (0, 0)

/-- The winning window index `i_best`. -/
def iBest {K : Type} [LinearOrderedField K] (piv : K) (cosf : K → K)
    (fs : List K → List K → K × K) (orbit phase : List K) (tune : K) : Nat :=
  (scanBest (rmsAt piv cosf fs orbit phase tune) orbit.length).2

/-- `get_kick(orbit, phase, tune)` (lines 12-132; plotting elided): the
window scan, then the phase folding of lines 62-67 — `k` by Python `int()`
truncation, the two candidates `solutions`, and `np.argmin` of their
distances to `apriori_phase` (first index on a tie) — returning the kick
phase and `cos_coefficients[i_best % bpm_nb]`. -/
def get_kick {K : Type} [LinearOrderedField K] [FloorRing K] (piv : K)
    (cosf : K → K) (fs : List K → List K → K × K) (orbit phase : List K)
    (tune : K) : K × (K × K) :=
  let bpm_nb := orbit.length
  let i := iBest piv cosf fs orbit phase tune
  let c := (fitAt piv fs orbit phase tune i).2
  let apriori_phase := phase.getD i 0
  let k : ℤ := truncInt ((apriori_phase + c) / piv + tune)
  let s0 := -c - piv * tune + (k : K) * piv
  let s1 := -c - piv * tune + ((k : K) + 1) * piv
  let kick_phase := if |s0 - apriori_phase| ≤ |s1 - apriori_phase| then s0 else s1
  (kick_phase, fitAt piv fs orbit phase tune (i % bpm_nb))

/-- The kick phase as the specification words it: an integer
`k = floor((apriori_phase + c)/pi + tune)`, two candidates
`-c - pi*tune + k*pi` and `-c - pi*tune + (k+1)*pi`, and the candidate
closest to `apriori_phase` (the first on a tie, as `np.argmin` would
select). -/
def kickPhaseSpec {K : Type} [LinearOrderedField K] [FloorRing K]
    (piv c apriori tune : K) : K :=
  let k : ℤ := ⌊(apriori + c) / piv + tune⌋
  let s0 := -c - piv * tune + (k : K) * piv
  let s1 := -c - piv * tune + ((k : K) + 1) * piv
  if |s0 - apriori| ≤ |s1 - apriori| then s0 else s1

/-! ### Properties of the window scan -/

theorem scanBest_succ {K : Type} [LinearOrder K] [Zero K] (f : Nat → K)
    (N : Nat) : scanBest f (N + 1) = scanStep f (scanBest f N) N := by
  unfold scanBest
  rw [List.range_succ, List.foldl_append, List.foldl_cons, List.foldl_nil]

/-- The scan returns the earliest index attaining the minimum of `f` over
`0..N-1` (with its value): index 0 seeds the state, a later index replaces
it only on a strictly smaller value. -/
theorem scanBest_spec {K : Type} [LinearOrder K] [Zero K] (f : Nat → K)
    (N : Nat) (hN : 1 ≤ N) :
    (scanBest f N).2 < N ∧ (scanBest f N).1 = f (scanBest f N).2 ∧
    (∀ j, j < N → f (scanBest f N).2 ≤ f j) ∧
    (∀ j, j < (scanBest f N).2 → f (scanBest f N).2 < f j) := by
  induction N with
  | zero => omega
  | succ M ih =>
    rcases Nat.eq_zero_or_pos M with rfl | hM
    · have h1 : scanBest f 1 = (f 0, 0) := by
        rw [scanBest_succ]
        show scanStep f (0, 0) 0 = (f 0, 0)
        simp [scanStep]
      rw [h1]
      refine ⟨Nat.one_pos, rfl, ?_, ?_⟩
      · intro j hj
        have : j = 0 := Nat.lt_one_iff.mp hj
        subst this
        exact le_refl _
      · intro j hj
        exact absurd hj (Nat.not_lt_zero j)
    · obtain ⟨h1, h2, h3, h4⟩ := ih hM
      rw [scanBest_succ]
      unfold scanStep
      by_cases hc : f M < (scanBest f M).1 ∨ M = 0
      · rw [if_pos hc]
        have hlt : f M < f (scanBest f M).2 := by
          rcases hc with h | h
          · rw [h2] at h; exact h
          · omega
        refine ⟨Nat.lt_succ_self M, rfl, ?_, ?_⟩
        · intro j hj
          rcases Nat.lt_succ_iff_lt_or_eq.mp hj with hj2 | rfl
          · exact le_trans hlt.le (h3 j hj2)
          · exact le_refl _
        · intro j hj
          exact lt_of_lt_of_le hlt (h3 j hj)
      · rw [if_neg hc]
        push_neg at hc
        obtain ⟨hge, hM0⟩ := hc
        refine ⟨Nat.lt_succ_of_lt h1, h2, ?_, h4⟩
        intro j hj
        rcases Nat.lt_succ_iff_lt_or_eq.mp hj with hj2 | rfl
        · exact h3 j hj2
        · rw [h2] at hge
          exact hge

/-- C3: for every input to the kick-localization algorithm, the winning
window index is chosen by a strict-minimum scan over candidate start
indices `0..N-1`: index 0 initializes the minimum, a later index replaces
the incumbent only on a strictly smaller sum of squared residuals, and any
index below the winner has a strictly larger residual — so on equal minimal
residuals the algorithm deterministically returns the lower index. -/
theorem C3_strict_min_scan {K : Type} [LinearOrderedField K] (piv : K)
    (cosf : K → K) (fs : List K → List K → K × K) (orbit phase : List K)
    (tune : K) (hN : 1 ≤ orbit.length) :
    iBest piv cosf fs orbit phase tune < orbit.length ∧
    (∀ j, j < orbit.length →
      rmsAt piv cosf fs orbit phase tune (iBest piv cosf fs orbit phase tune)
        ≤ rmsAt piv cosf fs orbit phase tune j) ∧
    (∀ j, j < iBest piv cosf fs orbit phase tune →
      rmsAt piv cosf fs orbit phase tune (iBest piv cosf fs orbit phase tune)
        < rmsAt piv cosf fs orbit phase tune j) := by
  obtain ⟨h1, _, h3, h4⟩ :=
    scanBest_spec (rmsAt piv cosf fs orbit phase tune) orbit.length hN
  exact ⟨h1, h3, h4⟩

/-- Witness for C3 at a concrete input. -/
theorem C3_witness :
    iBest (3 : ℚ) id (fun _ _ => (0, 0)) [1] [2] 0 < List.length [(1 : ℚ)] ∧
    (∀ j, j < List.length [(1 : ℚ)] →
      rmsAt (3 : ℚ) id (fun _ _ => (0, 0)) [1] [2] 0
          (iBest (3 : ℚ) id (fun _ _ => (0, 0)) [1] [2] 0)
        ≤ rmsAt (3 : ℚ) id (fun _ _ => (0, 0)) [1] [2] 0 j) ∧
    (∀ j, j < iBest (3 : ℚ) id (fun _ _ => (0, 0)) [1] [2] 0 →
      rmsAt (3 : ℚ) id (fun _ _ => (0, 0)) [1] [2] 0
          (iBest (3 : ℚ) id (fun _ _ => (0, 0)) [1] [2] 0)
        < rmsAt (3 : ℚ) id (fun _ _ => (0, 0)) [1] [2] 0 j) :=
  C3_strict_min_scan 3 id (fun _ _ => (0, 0)) [1] [2] 0 (by decide)

/-- C10: the winning index always lies in `0..N-1`, so its reduction modulo
`N` at the return site is the identity and the returned fit-coefficient
pair is exactly the winning window's pair. -/
theorem C10_mod_identity {K : Type} [LinearOrderedField K] [FloorRing K]
    (piv : K) (cosf : K → K) (fs : List K → List K → K × K)
    (orbit phase : List K) (tune : K) (hN : 1 ≤ orbit.length) :
    iBest piv cosf fs orbit phase tune < orbit.length ∧
    iBest piv cosf fs orbit phase tune % orbit.length
      = iBest piv cosf fs orbit phase tune ∧
    (get_kick piv cosf fs orbit phase tune).2
      = fitAt piv fs orbit phase tune (iBest piv cosf fs orbit phase tune) := by
  have h1 :=
    (scanBest_spec (rmsAt piv cosf fs orbit phase tune) orbit.length hN).1
  have hmod : iBest piv cosf fs orbit phase tune % orbit.length
      = iBest piv cosf fs orbit phase tune := Nat.mod_eq_of_lt h1
  refine ⟨h1, hmod, ?_⟩
  show fitAt piv fs orbit phase tune
      (iBest piv cosf fs orbit phase tune % orbit.length) = _
  rw [hmod]

/-- Witness for C10 at a concrete input. -/
theorem C10_witness :
    iBest (3 : ℚ) id (fun _ _ => (0, 1)) [1] [2] 0 < List.length [(1 : ℚ)] ∧
    iBest (3 : ℚ) id (fun _ _ => (0, 1)) [1] [2] 0 % List.length [(1 : ℚ)]
      = iBest (3 : ℚ) id (fun _ _ => (0, 1)) [1] [2] 0 ∧
    (get_kick (3 : ℚ) id (fun _ _ => (0, 1)) [1] [2] 0).2
      = fitAt (3 : ℚ) (fun _ _ => (0, 1)) [1] [2] 0
          (iBest (3 : ℚ) id (fun _ _ => (0, 1)) [1] [2] 0) :=
  C10_mod_identity 3 id (fun _ _ => (0, 1)) [1] [2] 0 (by decide)

/-- The two candidate kick phases of `get_kick.py` lines 64-65, from the
winning fit offset `c`, the anchor `apriori`, and the tune:
`k = int((apriori + c)/pi + tune)` by Python `int()` truncation, and the
pair `(-c - pi*tune + k*pi, -c - pi*tune + (k+1)*pi)`. -/
def kickCandidates {K : Type} [LinearOrderedField K] [FloorRing K]
    (piv c apriori tune : K) : K × K :=
  (-c - piv * tune + ((truncInt ((apriori + c) / piv + tune) : ℤ) : K) * piv,
   -c - piv * tune + (((truncInt ((apriori + c) / piv + tune) : ℤ) : K) + 1) * piv)

/-- C2 (amended): the kick phase is computed from the winning window's fit
`(b, c)` and anchor `apriori_phase = phase[i_best]` by forming
`k = int((apriori_phase + c)/pi + tune)` — Python `int()`, i.e. truncation
toward zero, which equals the floor only when the argument is non-negative —
then the two candidates `-c - pi*tune + k*pi` and `-c - pi*tune + (k+1)*pi`,
and returning a candidate whose absolute distance to `apriori_phase` is not
exceeded by the other's. -/
theorem C2_amended {K : Type} [LinearOrderedField K] [FloorRing K] (piv : K)
    (cosf : K → K) (fs : List K → List K → K × K) (orbit phase : List K)
    (tune : K) (hN : 1 ≤ orbit.length) :
    ((get_kick piv cosf fs orbit phase tune).1
        = (kickCandidates piv
            (fitAt piv fs orbit phase tune (iBest piv cosf fs orbit phase tune)).2
            (phase.getD (iBest piv cosf fs orbit phase tune) 0) tune).1
      ∨ (get_kick piv cosf fs orbit phase tune).1
        = (kickCandidates piv
            (fitAt piv fs orbit phase tune (iBest piv cosf fs orbit phase tune)).2
            (phase.getD (iBest piv cosf fs orbit phase tune) 0) tune).2) ∧
    |(get_kick piv cosf fs orbit phase tune).1
        - phase.getD (iBest piv cosf fs orbit phase tune) 0|
      ≤ |(kickCandidates piv
            (fitAt piv fs orbit phase tune (iBest piv cosf fs orbit phase tune)).2
            (phase.getD (iBest piv cosf fs orbit phase tune) 0) tune).1
          - phase.getD (iBest piv cosf fs orbit phase tune) 0| ∧
    |(get_kick piv cosf fs orbit phase tune).1
        - phase.getD (iBest piv cosf fs orbit phase tune) 0|
      ≤ |(kickCandidates piv
            (fitAt piv fs orbit phase tune (iBest piv cosf fs orbit phase tune)).2
            (phase.getD (iBest piv cosf fs orbit phase tune) 0) tune).2
          - phase.getD (iBest piv cosf fs orbit phase tune) 0| := by
  set c := (fitAt piv fs orbit phase tune (iBest piv cosf fs orbit phase tune)).2
  set a := phase.getD (iBest piv cosf fs orbit phase tune) 0
  have hkp : (get_kick piv cosf fs orbit phase tune).1
      = (if |(kickCandidates piv c a tune).1 - a|
            ≤ |(kickCandidates piv c a tune).2 - a|
         then (kickCandidates piv c a tune).1
         else (kickCandidates piv c a tune).2) := rfl
  by_cases hle : |(kickCandidates piv c a tune).1 - a|
      ≤ |(kickCandidates piv c a tune).2 - a|
  · rw [hkp, if_pos hle]
    exact ⟨Or.inl rfl, le_refl _, hle⟩
  · rw [hkp, if_neg hle]
    exact ⟨Or.inr rfl, (not_le.mp hle).le, le_refl _⟩

/-- Witness for C2 (amended) at a concrete input. -/
theorem C2_amended_witness :
    ((get_kick (3 : ℚ) id (fun _ _ => (0, 2)) [0] [5] 1).1
        = (kickCandidates (3 : ℚ)
            (fitAt (3 : ℚ) (fun _ _ => (0, 2)) [0] [5] 1
              (iBest (3 : ℚ) id (fun _ _ => (0, 2)) [0] [5] 1)).2
            (List.getD [(5 : ℚ)] (iBest (3 : ℚ) id (fun _ _ => (0, 2)) [0] [5] 1) 0) 1).1
      ∨ (get_kick (3 : ℚ) id (fun _ _ => (0, 2)) [0] [5] 1).1
        = (kickCandidates (3 : ℚ)
            (fitAt (3 : ℚ) (fun _ _ => (0, 2)) [0] [5] 1
              (iBest (3 : ℚ) id (fun _ _ => (0, 2)) [0] [5] 1)).2
            (List.getD [(5 : ℚ)] (iBest (3 : ℚ) id (fun _ _ => (0, 2)) [0] [5] 1) 0) 1).2) ∧
    |(get_kick (3 : ℚ) id (fun _ _ => (0, 2)) [0] [5] 1).1
        - List.getD [(5 : ℚ)] (iBest (3 : ℚ) id (fun _ _ => (0, 2)) [0] [5] 1) 0|
      ≤ |(kickCandidates (3 : ℚ)
            (fitAt (3 : ℚ) (fun _ _ => (0, 2)) [0] [5] 1
              (iBest (3 : ℚ) id (fun _ _ => (0, 2)) [0] [5] 1)).2
            (List.getD [(5 : ℚ)] (iBest (3 : ℚ) id (fun _ _ => (0, 2)) [0] [5] 1) 0) 1).1
          - List.getD [(5 : ℚ)] (iBest (3 : ℚ) id (fun _ _ => (0, 2)) [0] [5] 1) 0| ∧
    |(get_kick (3 : ℚ) id (fun _ _ => (0, 2)) [0] [5] 1).1
        - List.getD [(5 : ℚ)] (iBest (3 : ℚ) id (fun _ _ => (0, 2)) [0] [5] 1) 0|
      ≤ |(kickCandidates (3 : ℚ)
            (fitAt (3 : ℚ) (fun _ _ => (0, 2)) [0] [5] 1
              (iBest (3 : ℚ) id (fun _ _ => (0, 2)) [0] [5] 1)).2
            (List.getD [(5 : ℚ)] (iBest (3 : ℚ) id (fun _ _ => (0, 2)) [0] [5] 1) 0) 1).2
          - List.getD [(5 : ℚ)] (iBest (3 : ℚ) id (fun _ _ => (0, 2)) [0] [5] 1) 0| :=
  C2_amended 3 id (fun _ _ => (0, 2)) [0] [5] 1 (by decide)

/-- The kick phase returned by `get_kick`, written out from a computed
winning index, fit offset and anchor. -/
theorem get_kick_phase_eq {K : Type} [LinearOrderedField K] [FloorRing K]
    (piv : K) (cosf : K → K) (fs : List K → List K → K × K)
    (orbit phase : List K) (tune : K) (i : Nat) (c apriori : K)
    (hi : iBest piv cosf fs orbit phase tune = i)
    (hc : (fitAt piv fs orbit phase tune i).2 = c)
    (ha : phase.getD i 0 = apriori) :
    (get_kick piv cosf fs orbit phase tune).1
      = (if |(-c - piv * tune
                + ((truncInt ((apriori + c) / piv + tune) : ℤ) : K) * piv)
              - apriori|
            ≤ |(-c - piv * tune
                + (((truncInt ((apriori + c) / piv + tune) : ℤ) : K) + 1) * piv)
              - apriori|
         then -c - piv * tune
                + ((truncInt ((apriori + c) / piv + tune) : ℤ) : K) * piv
         else -c - piv * tune
                + (((truncInt ((apriori + c) / piv + tune) : ℤ) : K) + 1) * piv) := by
  subst hc ha
  unfold get_kick
  rw [hi]

/-- C2 (counterexample): at orbit `[0]`, phase `[-pi]`, tune `0`, with the
window fit returning `(1, 2*pi/5)`, the quantity `(apriori_phase + c)/pi +
tune` equals `-3/5`; the code's `int()` truncation gives `k = 0` and the
kick phase `-2*pi/5`, while the claim's floor-based computation gives
`k = -1` and the kick phase `-7*pi/5` — the two differ. -/
theorem C2_counterexample :
    (get_kick Real.pi Real.cos (fun _ _ => (1, 2 * Real.pi / 5)) [0]
        [-Real.pi] 0).1 = -(2 * Real.pi / 5) ∧
    kickPhaseSpec Real.pi (2 * Real.pi / 5) (-Real.pi) 0 = -(7 * Real.pi / 5) ∧
    (get_kick Real.pi Real.cos (fun _ _ => (1, 2 * Real.pi / 5)) [0]
        [-Real.pi] 0).1 ≠ kickPhaseSpec Real.pi (2 * Real.pi / 5) (-Real.pi) 0 := by
  have hpi : (0 : ℝ) < Real.pi := Real.pi_pos
  have hpne : (Real.pi : ℝ) ≠ 0 := Real.pi_ne_zero
  have harg : (-Real.pi + 2 * Real.pi / 5) / Real.pi + 0 = (-(3 / 5) : ℝ) := by
    rw [add_zero, div_eq_iff hpne]
    ring
  have htr : truncInt ((-(3 / 5)) : ℝ) = 0 := by
    unfold truncInt
    rw [if_neg (by norm_num), Int.ceil_eq_zero_iff]
    constructor <;> norm_num
  have hib : iBest Real.pi Real.cos
      (fun _ _ => ((1 : ℝ), 2 * Real.pi / 5)) [0] [-Real.pi] 0 = 0 := by
    unfold iBest scanBest
    rw [show List.range (List.length [(0 : ℝ)]) = [0] from rfl]
    simp [scanStep]
  have hcode : (get_kick Real.pi Real.cos
      (fun _ _ => ((1 : ℝ), 2 * Real.pi / 5)) [0] [-Real.pi] 0).1
      = -(2 * Real.pi / 5) := by
    rw [get_kick_phase_eq Real.pi Real.cos _ [0] [-Real.pi] 0 0
      (2 * Real.pi / 5) (-Real.pi) hib rfl rfl]
    rw [harg, htr]
    rw [if_pos]
    · push_cast
      ring
    · have e0 : (-(2 * Real.pi / 5) - Real.pi * 0 + (((0 : ℤ) : ℝ)) * Real.pi)
          - (-Real.pi) = 3 * Real.pi / 5 := by push_cast; ring
      have e1 : (-(2 * Real.pi / 5) - Real.pi * 0 + ((((0 : ℤ) : ℝ)) + 1) * Real.pi)
          - (-Real.pi) = 8 * Real.pi / 5 := by push_cast; ring
      rw [e0, e1, abs_of_nonneg (by linarith), abs_of_nonneg (by linarith)]
      linarith
  have hfl : ⌊((-Real.pi + 2 * Real.pi / 5) / Real.pi + 0 : ℝ)⌋ = -1 := by
    rw [harg, Int.floor_eq_iff]
    constructor <;> norm_num
  have hspec : kickPhaseSpec Real.pi (2 * Real.pi / 5) (-Real.pi) 0
      = -(7 * Real.pi / 5) := by
    unfold kickPhaseSpec
    rw [hfl]
    rw [if_pos]
    · push_cast
      ring
    · have e0 : (-(2 * Real.pi / 5) - Real.pi * 0 + (((-1 : ℤ) : ℝ)) * Real.pi)
          - (-Real.pi) = -(2 * Real.pi / 5) := by push_cast; ring
      have e1 : (-(2 * Real.pi / 5) - Real.pi * 0 + ((((-1 : ℤ) : ℝ)) + 1) * Real.pi)
          - (-Real.pi) = 3 * Real.pi / 5 := by push_cast; ring
      rw [e0, e1, abs_neg, abs_of_nonneg (by linarith), abs_of_nonneg (by linarith)]
      linarith
  refine ⟨hcode, hspec, ?_⟩
  rw [hcode, hspec]
  intro h
  have : Real.pi = 0 := by linarith
  exact hpne this

/-! ### Claims about the orbit record constructor -/

/-- C1: constructing the orbit record with `BPMx` of shape `[1, 10]` and
`CMx` of shape `[1, 9]` — ten samples against nine — succeeds and returns a
record, instead of failing with the inconsistent-sample-count error: the
guard `if item is not None: return` in `check_single_arrays` skips every
provided array, and `sample_nb` is never updated, so the sample-count
comparison is unreachable. -/
theorem C1_orbitdata_accepts_mismatched_samples :
    OrbitData.init
      (some (PyVal.arr [[1, 2, 3, 4, 5, 6, 7, 8, 9, 10]]))
      (some (PyVal.arr [[0, 0, 0, 0, 0, 0, 0, 0, 0, 0]]))
      (some (PyVal.arr [[1, 2, 3, 4, 5, 6, 7, 8, 9]]))
      (some (PyVal.arr [[0, 0, 0, 0, 0, 0, 0, 0, 0, 0]]))
      (some 150) none
    = Except.ok
      { BPMx := some (PyVal.arr [[1, 2, 3, 4, 5, 6, 7, 8, 9, 10]]),
        BPMy := some (PyVal.arr [[0, 0, 0, 0, 0, 0, 0, 0, 0, 0]]),
        CMx := some (PyVal.arr [[1, 2, 3, 4, 5, 6, 7, 8, 9]]),
        CMy := some (PyVal.arr [[0, 0, 0, 0, 0, 0, 0, 0, 0, 0]]),
        sampling_frequency := some 150,
        sample_number := 0,
        measure_date := none } := rfl

/-- C9: every successful construction of the orbit record leaves
`sample_number` equal to 0, whatever arrays are provided — the local
`sample_nb` is initialized to 0 and never recomputed from the arrays. -/
theorem C9_sample_number_zero (a b c d : Option PyVal)
    (sf : Option ℚ) (md : Option DateVal) (r : OrbitData)
    (h : OrbitData.init a b c d sf md = Except.ok r) :
    r.sample_number = 0 := by
  unfold OrbitData.init check_single_arrays at h
  cases a with
  | none => simp at h
  | some av =>
    cases b with
    | none => simp at h
    | some bv =>
      cases c with
      | none => simp at h
      | some cv =>
        cases d with
        | none => simp at h
        | some dv =>
          simp only [Except.ok.injEq] at h
          rw [← h]

/-- Witness for C9 at a concrete input. -/
theorem C9_witness :
    ({ BPMx := some (PyVal.arr [[1]]), BPMy := some (PyVal.arr [[2]]),
       CMx := some (PyVal.arr [[3]]), CMy := some (PyVal.arr [[4]]),
       sampling_frequency := some 150, sample_number := 0,
       measure_date := none } : OrbitData).sample_number = 0 :=
  C9_sample_number_zero
    (some (PyVal.arr [[1]])) (some (PyVal.arr [[2]]))
    (some (PyVal.arr [[3]])) (some (PyVal.arr [[4]]))
    (some 150) none _ rfl

/-! ### Claims about the measurement-dump loader's key validation -/

/-- C4 (counterexample): a dump in which only `__version__` is absent makes
the loader fail with a bare `KeyError` at the version comparison
`data['__version__'] == '1.0'` — reached before the key loop — not with the
MissingField `ValueError` naming `__version__` that the claim asserts. -/
theorem C4_counterexample :
    load_orbit_dump
        { difforbitX := some [[1]], difforbitY := some [[1]],
          CMx := some [[1]], CMy := some [[1]], version := none,
          header := some "Created on: Mon May 30 16:30:30 2016" }
      = Except.error (IoErr.keyLookup "__version__") ∧
    IoErr.keyLookup "__version__" ≠ IoErr.missingField "__version__" := by
  exact ⟨rfl, by decide⟩

/-- C4 (amended): with `__version__` present and equal to `'1.0'`, the
absence of any one of the five other keys — checked in the order
`difforbitX`, `difforbitY`, `CMx`, `CMy`, `__header__` — fails with the
MissingField error naming that key; the absence of `__version__` itself
instead fails with a bare key-lookup error before the key loop. -/
theorem C4_amended (d : MatDump) (hv : d.version = some "1.0") :
    (d.difforbitX = none →
      load_orbit_dump d = Except.error (IoErr.missingField "difforbitX")) ∧
    (d.difforbitX.isSome = true → d.difforbitY = none →
      load_orbit_dump d = Except.error (IoErr.missingField "difforbitY")) ∧
    (d.difforbitX.isSome = true → d.difforbitY.isSome = true → d.CMx = none →
      load_orbit_dump d = Except.error (IoErr.missingField "CMx")) ∧
    (d.difforbitX.isSome = true → d.difforbitY.isSome = true →
      d.CMx.isSome = true → d.CMy = none →
      load_orbit_dump d = Except.error (IoErr.missingField "CMy")) ∧
    (d.difforbitX.isSome = true → d.difforbitY.isSome = true →
      d.CMx.isSome = true → d.CMy.isSome = true → d.header = none →
      load_orbit_dump d = Except.error (IoErr.missingField "__header__")) := by
  refine ⟨?_, ?_, ?_, ?_, ?_⟩
  · intro h1
    simp [load_orbit_dump, hv, h1]
  · intro h1 h2
    obtain ⟨cx, hcx⟩ := Option.isSome_iff_exists.mp h1
    simp [load_orbit_dump, hv, hcx, h2]
  · intro h1 h2 h3
    obtain ⟨cx, hcx⟩ := Option.isSome_iff_exists.mp h1
    obtain ⟨cy, hcy⟩ := Option.isSome_iff_exists.mp h2
    simp [load_orbit_dump, hv, hcx, hcy, h3]
  · intro h1 h2 h3 h4
    obtain ⟨cx, hcx⟩ := Option.isSome_iff_exists.mp h1
    obtain ⟨cy, hcy⟩ := Option.isSome_iff_exists.mp h2
    obtain ⟨cu, hcu⟩ := Option.isSome_iff_exists.mp h3
    simp [load_orbit_dump, hv, hcx, hcy, hcu, h4]
  · intro h1 h2 h3 h4 h5
    obtain ⟨cx, hcx⟩ := Option.isSome_iff_exists.mp h1
    obtain ⟨cy, hcy⟩ := Option.isSome_iff_exists.mp h2
    obtain ⟨cu, hcu⟩ := Option.isSome_iff_exists.mp h3
    obtain ⟨cv, hcv⟩ := Option.isSome_iff_exists.mp h4
    simp [load_orbit_dump, hv, hcx, hcy, hcu, hcv, h5]

/-- Witness for C4 (amended) at a concrete input missing `CMy`. -/
theorem C4_witness :
    load_orbit_dump
        { difforbitX := some [[1]], difforbitY := some [[1]],
          CMx := some [[1]], CMy := none, version := some "1.0",
          header := some "Created on: Mon May 30 16:30:30 2016" }
      = Except.error (IoErr.missingField "CMy") :=
  (C4_amended _ rfl).2.2.2.1 rfl rfl rfl rfl

/-! ### Claims about the archiver client's week test -/

/-- C5 (counterexample): with the current wall clock at 2016-01-11 (ISO week
2 of 2016) and a query start time of 2015-01-05 (ISO week 2 of 2015 — a
different year), the client selects the current-week index: only the week
numbers are compared. -/
theorem C5_counterexample :
    Archiver.read ⟨2016, 1, 11, 12, 0, 0, 0⟩ (VarArg.one "X")
        ⟨2015, 1, 5, 10, 0, 0, 0⟩ (some ⟨2015, 1, 5, 11, 0, 0, 0⟩)
      = Except.ok
        { index := "/opt/Archive/current_week/index",
          command := "camonitor", strstart := 1,
          startstr := ("2015-01-05 10:00:00").data,
          strend := 1, endstr := ("2015-01-05 11:00:00").data,
          names := "X" } ∧
    (⟨2015, 1, 5, 10, 0, 0, 0⟩ : PyDateTime).year
      ≠ (⟨2016, 1, 11, 12, 0, 0, 0⟩ : PyDateTime).year := by
  exact ⟨by decide, by decide⟩

/-- C5 (amended): for every valid query (start not after end, end not after
the current wall clock `now`), the client succeeds and selects the
current-week index exactly when the ISO week *numbers* of `now` and
`start_time` coincide — the ISO year is not compared, so a start time in a
different year with the same week number is treated as current-week. -/
theorem C5_amended (now : PyDateTime) (var : VarArg) (t0 : PyDateTime)
    (t1opt : Option PyDateTime)
    (h1 : dtLt (t1opt.getD t0) t0 = false)
    (h2 : dtLt now (t1opt.getD t0) = false) :
    Archiver.read now var t0 t1opt
      = Except.ok (buildRequest now var t0 (t1opt.getD t0)) ∧
    ((buildRequest now var t0 (t1opt.getD t0)).index
        = "/opt/Archive/current_week/index"
      ↔ isoWeekNum now = isoWeekNum t0) := by
  constructor
  · simp [Archiver.read, h1, h2]
  · have hproj : (buildRequest now var t0 (t1opt.getD t0)).index
        = (if isoWeekNum now = isoWeekNum t0
           then "/opt/Archive/current_week/index"
           else "/opt/Archive/master_index") := rfl
    rw [hproj]
    by_cases hw : isoWeekNum now = isoWeekNum t0
    · rw [if_pos hw]
      exact iff_of_true rfl hw
    · rw [if_neg hw]
      exact iff_of_false (by decide) hw

/-- Witness for C5 (amended) at a concrete valid query. -/
theorem C5_witness :
    Archiver.read ⟨2016, 5, 30, 16, 40, 0, 0⟩
        (VarArg.many ["A", "B"]) ⟨2016, 5, 30, 16, 30, 29, 0⟩
        (some ⟨2016, 5, 30, 16, 40, 0, 0⟩)
      = Except.ok (buildRequest ⟨2016, 5, 30, 16, 40, 0, 0⟩
          (VarArg.many ["A", "B"]) ⟨2016, 5, 30, 16, 30, 29, 0⟩
          ((some ⟨2016, 5, 30, 16, 40, 0, 0⟩).getD ⟨2016, 5, 30, 16, 30, 29, 0⟩)) ∧
    ((buildRequest ⟨2016, 5, 30, 16, 40, 0, 0⟩
        (VarArg.many ["A", "B"]) ⟨2016, 5, 30, 16, 30, 29, 0⟩
        ((some ⟨2016, 5, 30, 16, 40, 0, 0⟩).getD ⟨2016, 5, 30, 16, 30, 29, 0⟩)).index
        = "/opt/Archive/current_week/index"
      ↔ isoWeekNum ⟨2016, 5, 30, 16, 40, 0, 0⟩
          = isoWeekNum ⟨2016, 5, 30, 16, 30, 29, 0⟩) :=
  C5_amended ⟨2016, 5, 30, 16, 40, 0, 0⟩ (VarArg.many ["A", "B"])
    ⟨2016, 5, 30, 16, 30, 29, 0⟩ (some ⟨2016, 5, 30, 16, 40, 0, 0⟩)
    (by decide) (by decide)

/-! ### Claims about the archiver response parser -/

theorem addEntry_preserves_str (m : List (String × CamEntry)) (k s : String)
    (t : PyDateTime)
    (hm : ∀ p ∈ m, ∀ v ∈ p.2.value, isStrVal v = true) :
    ∀ p ∈ addEntry m k (PVal.str s) t, ∀ v ∈ p.2.value, isStrVal v = true := by
  intro p hp v hv
  unfold addEntry at hp
  split at hp
  · obtain ⟨q, hq, rfl⟩ := List.mem_map.mp hp
    by_cases hqk : (q.1 == k) = true
    · rw [if_pos hqk] at hv
      rcases List.mem_append.mp hv with hold | hnew
      · exact hm q hq v hold
      · rw [List.mem_singleton.mp hnew]
        rfl
    · rw [if_neg hqk] at hv
      exact hm q hq v hv
  · rcases List.mem_append.mp hp with hq | hq
    · exact hm p hq v hv
    · rw [List.mem_singleton.mp hq] at hv
      rw [List.mem_singleton.mp hv]
      rfl

theorem procLine_preserves_str (m m2 : List (String × CamEntry)) (line : String)
    (hm : ∀ p ∈ m, ∀ v ∈ p.2.value, isStrVal v = true)
    (h : procLine m line = Except.ok m2) :
    ∀ p ∈ m2, ∀ v ∈ p.2.value, isStrVal v = true := by
  unfold procLine at h
  split at h
  · rename_i k date time value rest heq
    split at h
    · exact absurd h (by simp)
    · rename_i t ht
      rw [Except.ok.injEq] at h
      rw [← h]
      exact addEntry_preserves_str m k value t hm
  · exact absurd h (by simp)

theorem procLines_preserves_str (lines : List String) :
    ∀ m m2, (∀ p ∈ m, ∀ v ∈ p.2.value, isStrVal v = true) →
    procLines m lines = Except.ok m2 →
    ∀ p ∈ m2, ∀ v ∈ p.2.value, isStrVal v = true := by
  induction lines with
  | nil =>
    intro m m2 hm h
    unfold procLines at h
    rw [Except.ok.injEq] at h
    rw [← h]
    exact hm
  | cons line rest ih =>
    intro m m2 hm h
    unfold procLines at h
    split at h
    · exact absurd h (by simp)
    · rename_i m1 hm1
      exact ih m1 m2 (procLine_preserves_str m m1 line hm hm1) h

/-- C6 (amended): for every response body the parser accepts, every entry of
every per-variable value array is the raw text token of its line, still a
string — the closing `np.array` pass does not convert the entries to
numbers. -/
theorem C6_amended (body : String) (res : List (String × CamEntry))
    (h : filter_camonitor body = Except.ok res) :
    ∀ p ∈ res, ∀ v ∈ p.2.value, isStrVal v = true := by
  unfold filter_camonitor at h
  split at h
  · exact absurd h (by simp)
  · rename_i m hm
    rw [Except.ok.injEq] at h
    rw [← h]
    intro p hp v hv
    obtain ⟨q, hq, rfl⟩ := List.mem_map.mp hp
    have hinv := procLines_preserves_str _ [] m (by intro p hp; simp at hp) hm
    exact hinv q hq v hv

/-- Witness for C6 (amended) at a concrete response body. -/
theorem C6_witness : isStrVal (PVal.str "3.5") = true :=
  C6_amended "NAME:X 2016-05-30 16:30:29.000000 3.5\t\n"
    [("NAME:X", { value := [PVal.str "3.5"],
                  time := [⟨2016, 5, 30, 16, 30, 29, 0⟩] })]
    (by decide)
    ("NAME:X", { value := [PVal.str "3.5"],
                 time := [⟨2016, 5, 30, 16, 30, 29, 0⟩] })
    (by decide) (PVal.str "3.5") (by decide)

/-- C6 (counterexample): on the body `"NAME:X 2016-05-30 16:30:29.000000
3.5\t\n"` the parser returns the value array `[PVal.str "3.5"]` — the
unconverted text token, not a numeric value. -/
theorem C6_counterexample :
    filter_camonitor "NAME:X 2016-05-30 16:30:29.000000 3.5\t\n"
      = Except.ok [("NAME:X", { value := [PVal.str "3.5"],
                                time := [⟨2016, 5, 30, 16, 30, 29, 0⟩] })] ∧
    ([PVal.str "3.5"]).all isNumVal = false :=
  ⟨by decide, by decide⟩

/-! ### The array-archive round trip -/

theorem except_bind_ok {e a b : Type} (x : a) (f : a → Except e b) :
    (Except.ok x : Except e a).bind f = f x := rfl

theorem OrbitData.init_some (ax ay ux uy : PyVal) (sf : Option ℚ)
    (md : Option DateVal) :
    OrbitData.init (some ax) (some ay) (some ux) (some uy) sf md
      = Except.ok { BPMx := some ax, BPMy := some ay, CMx := some ux,
                    CMy := some uy, sampling_frequency := sf,
                    sample_number := 0, measure_date := md } := rfl

theorem load_orbit_npy_cons_v10 (r : NpyRecord) (rest : List NpyRecord)
    (hv : r.version = some "1.0") (d : PyDateTime)
    (hp : parseIsoDate r.measure_date = some d) :
    load_orbit_npy (r :: rest)
      = OrbitData.init r.BPMx r.BPMy r.CMx r.CMy r.sampling_frequency
          (some (DateVal.dt d)) := by
  unfold load_orbit_npy
  simp only [hv, hp]
  rw [if_true]

/-- C7: saving an orbit record that carries all four channel-group arrays, a
sampling frequency and a datetime measure timestamp through the `.npy`
format and reloading it reproduces the four arrays, the sampling frequency
and the measure timestamp exactly — the timestamp having passed through the
`DATETIME_ISO` text form. -/
theorem C7_npy_roundtrip (obj : OrbitData) (dt : PyDateTime)
    (hd : obj.measure_date = some (DateVal.dt dt)) (hv : ValidDate dt)
    (h1 : obj.BPMx.isSome = true) (h2 : obj.BPMy.isSome = true)
    (h3 : obj.CMx.isSome = true) (h4 : obj.CMy.isSome = true) :
    (save_orbit_npy obj).bind load_orbit_npy
      = Except.ok { BPMx := obj.BPMx, BPMy := obj.BPMy, CMx := obj.CMx,
                    CMy := obj.CMy,
                    sampling_frequency := obj.sampling_frequency,
                    sample_number := 0,
                    measure_date := obj.measure_date } := by
  obtain ⟨px, hpx⟩ := Option.isSome_iff_exists.mp h1
  obtain ⟨py, hpy⟩ := Option.isSome_iff_exists.mp h2
  obtain ⟨pu, hpu⟩ := Option.isSome_iff_exists.mp h3
  obtain ⟨pw, hpw⟩ := Option.isSome_iff_exists.mp h4
  have hsave : save_orbit_npy obj = Except.ok
      [{ BPMx := obj.BPMx, BPMy := obj.BPMy, CMx := obj.CMx, CMy := obj.CMy,
         sampling_frequency := obj.sampling_frequency,
         data_structure := "array[item, time_sample]",
         measure_date := formatIsoDate dt, version := some "1.0" }] := by
    unfold save_orbit_npy
    rw [hd]
  rw [hsave, except_bind_ok]
  rw [load_orbit_npy_cons_v10 _ [] rfl dt (parseIsoDate_formatIsoDate dt hv)]
  dsimp only
  rw [hpx, hpy, hpu, hpw, hd]
  exact OrbitData.init_some px py pu pw obj.sampling_frequency
    (some (DateVal.dt dt))

/-- Witness for C7 at a concrete record. -/
theorem C7_witness :
    (save_orbit_npy
        { BPMx := some (PyVal.arr [[1, 2]]), BPMy := some (PyVal.arr [[3, 4]]),
          CMx := some (PyVal.arr [[5, 6]]), CMy := some (PyVal.arr [[7, 8]]),
          sampling_frequency := some 150, sample_number := 0,
          measure_date := some (DateVal.dt ⟨2016, 5, 30, 16, 30, 29, 123456⟩) }).bind
      load_orbit_npy
      = Except.ok
        { BPMx := some (PyVal.arr [[1, 2]]), BPMy := some (PyVal.arr [[3, 4]]),
          CMx := some (PyVal.arr [[5, 6]]), CMy := some (PyVal.arr [[7, 8]]),
          sampling_frequency := some 150, sample_number := 0,
          measure_date := some (DateVal.dt ⟨2016, 5, 30, 16, 30, 29, 123456⟩) } :=
  C7_npy_roundtrip
    { BPMx := some (PyVal.arr [[1, 2]]), BPMy := some (PyVal.arr [[3, 4]]),
      CMx := some (PyVal.arr [[5, 6]]), CMy := some (PyVal.arr [[7, 8]]),
      sampling_frequency := some 150, sample_number := 0,
      measure_date := some (DateVal.dt ⟨2016, 5, 30, 16, 30, 29, 123456⟩) }
    ⟨2016, 5, 30, 16, 30, 29, 123456⟩ rfl (by decide) rfl rfl rfl rfl

/-! ### Comparing the two measurement-dump reconstructions -/

/-- When the legacy loader's per-element copy also succeeds on a cell
(`n ≤ a.length`), the broadcast assignment produced the same column: either
the lengths matched exactly, or the cell was a broadcast single entry, in
which case the target length is at most 1 and the replication coincides
with the truncation. -/
theorem broadcastCol_take {a : Col} {n : Nat} {col : Col}
    (h : broadcastCol a n = some col) (hle : n ≤ a.length) :
    col = a.take n := by
  unfold broadcastCol at h
  split at h
  · rename_i heq
    rw [Option.some.injEq] at h
    rw [← h, ← heq]
    exact (List.take_length a).symm
  · rename_i hne
    split at h
    · rename_i v
      rw [Option.some.injEq] at h
      have hn : n ≤ 1 := by simpa using hle
      interval_cases n
      · rw [← h]; rfl
      · rw [← h]; rfl
    · exact absurd h (by simp)

/-- Whenever the vectorized per-sample loop of `load_orbit_dump` and the
nested-iteration loop of `load_timeanalys` both succeed on the same cells,
they build the same four arrays. -/
theorem cols_agree (n : Nat) :
    ∀ (cx cy cu cv : Cells) (nx ny nu nv : Nat)
      (m m2 : Cells × Cells × Cells × Cells),
    dumpCols n cx cy cu cv nx ny nu nv = Except.ok m →
    timeCols n cx cy cu cv nx ny nu nv = Except.ok m2 →
    m2 = m := by
  induction n with
  | zero =>
    intro cx cy cu cv nx ny nu nv m m2 h1 h2
    have e1 : dumpCols 0 cx cy cu cv nx ny nu nv
        = Except.ok ([], [], [], []) := rfl
    have e2 : timeCols 0 cx cy cu cv nx ny nu nv
        = Except.ok ([], [], [], []) := rfl
    rw [e1, Except.ok.injEq] at h1
    rw [e2, Except.ok.injEq] at h2
    rw [← h1, ← h2]
  | succ k ih =>
    intro cx cy cu cv nx ny nu nv m m2 h1 h2
    rw [dumpCols.eq_def] at h1
    rw [timeCols.eq_def] at h2
    cases cx with
    | nil =>
      dsimp only at h1
      exact absurd h1 (by simp)
    | cons a cxs =>
      dsimp only at h1 h2
      cases hbcA : broadcastCol a nx with
      | none => rw [hbcA] at h1; exact absurd h1 (by simp)
      | some colA =>
        rw [hbcA] at h1
        dsimp only at h1
        by_cases hax : nx ≤ a.length
        · rw [if_pos hax] at h2
          cases cy with
          | nil =>
            dsimp only at h1
            exact absurd h1 (by simp)
          | cons b cys =>
            dsimp only at h1 h2
            cases hbcB : broadcastCol b ny with
            | none => rw [hbcB] at h1; exact absurd h1 (by simp)
            | some colB =>
              rw [hbcB] at h1
              dsimp only at h1
              by_cases hby : ny ≤ b.length
              · rw [if_pos hby] at h2
                cases cu with
                | nil =>
                  dsimp only at h1
                  exact absurd h1 (by simp)
                | cons u cus =>
                  dsimp only at h1 h2
                  cases hbcU : broadcastCol u nu with
                  | none => rw [hbcU] at h1; exact absurd h1 (by simp)
                  | some colU =>
                    rw [hbcU] at h1
                    dsimp only at h1
                    by_cases hun : nu ≤ u.length
                    · rw [if_pos hun] at h2
                      cases cv with
                      | nil =>
                        dsimp only at h1
                        exact absurd h1 (by simp)
                      | cons w cvs =>
                        dsimp only at h1 h2
                        cases hbcW : broadcastCol w nv with
                        | none => rw [hbcW] at h1; exact absurd h1 (by simp)
                        | some colW =>
                          rw [hbcW] at h1
                          dsimp only at h1
                          by_cases hwn : nv ≤ w.length
                          · rw [if_pos hwn] at h2
                            cases hd : dumpCols k cxs cys cus cvs nx ny nu nv with
                            | error e =>
                              rw [hd] at h1
                              exact absurd h1 (by simp)
                            | ok rr =>
                              rw [hd] at h1
                              cases ht : timeCols k cxs cys cus cvs nx ny nu nv with
                              | error e =>
                                rw [ht] at h2
                                exact absurd h2 (by simp)
                              | ok tt =>
                                rw [ht] at h2
                                obtain ⟨r1, r2, r3, r4⟩ := rr
                                obtain ⟨t1, t2, t3, t4⟩ := tt
                                dsimp only at h1 h2
                                rw [Except.ok.injEq] at h1 h2
                                have hrec : ((t1, t2, t3, t4) :
                                      Cells × Cells × Cells × Cells)
                                    = (r1, r2, r3, r4) :=
                                  ih cxs cys cus cvs nx ny nu nv
                                    (r1, r2, r3, r4) (t1, t2, t3, t4) hd ht
                                simp only [Prod.mk.injEq] at hrec
                                obtain ⟨e1, e2, e3, e4⟩ := hrec
                                rw [← h1, ← h2, e1, e2, e3, e4,
                                  broadcastCol_take hbcA hax,
                                  broadcastCol_take hbcB hby,
                                  broadcastCol_take hbcU hun,
                                  broadcastCol_take hbcW hwn]
                          · rw [if_neg hwn] at h2
                            exact absurd h2 (by simp)
                    · rw [if_neg hun] at h2
                      exact absurd h2 (by simp)
              · rw [if_neg hby] at h2
                exact absurd h2 (by simp)
        · rw [if_neg hax] at h2
          exact absurd h2 (by simp)

/-- The channel-group array held by an orbit-record field. -/
def matOf : Option PyVal → Cells
  | some (PyVal.arr m) => m
  | none => []

/-- C8 (counterexample): on a dump whose `difforbitX` announces two channels
(first cell `[1, 2]`) but whose second cell is the single row `[3]`, the
I/O module's loader succeeds — numpy broadcasts the single entry, giving
the column `[3, 3]` — while the legacy `load_timeanalys` raises an
`IndexError` copying the missing second row; the legacy loader returns no
arrays at all, so the two reconstructions are not equivalent on this
dump. -/
theorem C8_counterexample :
    load_orbit_dump
        { difforbitX := some [[1, 2], [3]], difforbitY := some [[5], [6]],
          CMx := some [[7], [8]], CMy := some [[9], [10]],
          version := some "1.0",
          header := some "MATLAB 5.0, Created on: Mon May 30 16:30:30 2016" }
      = Except.ok
        { BPMx := some (PyVal.arr [[1, 2], [3, 3]]),
          BPMy := some (PyVal.arr [[5], [6]]),
          CMx := some (PyVal.arr [[7], [8]]),
          CMy := some (PyVal.arr [[9], [10]]),
          sampling_frequency := some 150, sample_number := 0,
          measure_date := some (DateVal.raw "Mon May 30 16:30:30 2016") } ∧
    load_timeanalys
        { difforbitX := some [[1, 2], [3]], difforbitY := some [[5], [6]],
          CMx := some [[7], [8]], CMy := some [[9], [10]],
          version := some "1.0",
          header := some "MATLAB 5.0, Created on: Mon May 30 16:30:30 2016" }
      = Except.error IoErr.indexErr :=
  ⟨by decide, by decide⟩

/-- C8 (amended): on every dump contents that both loaders accept, the four
raw arrays returned by `load_timeanalys` equal — element for element — the
`BPMx`, `BPMy`, `CMx`, `CMy` fields of the record `load_orbit_dump`
returns.  The success sets of the two loaders differ: the vectorized
loader broadcasts single-row cells where the legacy loader raises
`IndexError`, and the legacy loader truncates over-long cells where the
vectorized loader raises a broadcast error; where both succeed, the
reconstructions agree. -/
theorem C8_amended (d : MatDump) (r : OrbitData)
    (ms : Cells × Cells × Cells × Cells)
    (h : load_orbit_dump d = Except.ok r)
    (h2 : load_timeanalys d = Except.ok ms) :
    ms = (matOf r.BPMx, matOf r.BPMy, matOf r.CMx, matOf r.CMy) := by
  unfold load_orbit_dump at h
  split at h
  · exact absurd h (by simp)
  · rename_i v hver
    split at h
    · rename_i hv10
      split at h
      · exact absurd h (by simp)
      · rename_i cx hcx
        split at h
        · exact absurd h (by simp)
        · rename_i cy hcy
          split at h
          · exact absurd h (by simp)
          · rename_i cu hcu
            split at h
            · exact absurd h (by simp)
            · rename_i cv hcv
              split at h
              · exact absurd h (by simp)
              · rename_i hdr hhdr
                split at h
                · rename_i part0 dateStr restParts
                  split at h
                  · exact absurd h (by simp)
                  · rename_i nx hnx
                    split at h
                    · exact absurd h (by simp)
                    · rename_i ny hny
                      split at h
                      · exact absurd h (by simp)
                      · rename_i nu hnu
                        split at h
                        · exact absurd h (by simp)
                        · rename_i nv hnv
                          split at h
                          · exact absurd h (by simp)
                          · rename_i m1 m2 m3 m4 hdump
                            rw [OrbitData.init_some, Except.ok.injEq] at h
                            subst h
                            unfold load_timeanalys at h2
                            rw [hcx] at h2
                            dsimp only at h2
                            rw [hnx] at h2
                            dsimp only at h2
                            rw [hcy] at h2
                            dsimp only at h2
                            rw [hny] at h2
                            dsimp only at h2
                            rw [hcu] at h2
                            dsimp only at h2
                            rw [hnu] at h2
                            dsimp only at h2
                            rw [hcv] at h2
                            dsimp only at h2
                            rw [hnv] at h2
                            dsimp only at h2
                            exact cols_agree cx.length cx cy cu cv nx ny nu nv
                              (m1, m2, m3, m4) ms hdump h2
                · exact absurd h (by simp)
    · exact absurd h (by simp)

/-- Witness for C8 (amended) at a concrete dump both loaders accept. -/
theorem C8_witness :
    (([[1, 2], [3, 4]], [[5], [6]], [[7], [8]], [[9], [10]]) :
        Cells × Cells × Cells × Cells)
      = (matOf (some (PyVal.arr [[1, 2], [3, 4]])),
         matOf (some (PyVal.arr [[5], [6]])),
         matOf (some (PyVal.arr [[7], [8]])),
         matOf (some (PyVal.arr [[9], [10]]))) :=
  C8_amended
    { difforbitX := some [[1, 2], [3, 4]], difforbitY := some [[5], [6]],
      CMx := some [[7], [8]], CMy := some [[9], [10]],
      version := some "1.0",
      header := some "MATLAB 5.0, Created on: Mon May 30 16:30:30 2016" }
    { BPMx := some (PyVal.arr [[1, 2], [3, 4]]),
      BPMy := some (PyVal.arr [[5], [6]]),
      CMx := some (PyVal.arr [[7], [8]]),
      CMy := some (PyVal.arr [[9], [10]]),
      sampling_frequency := some 150, sample_number := 0,
      measure_date := some (DateVal.raw "Mon May 30 16:30:30 2016") }
    ([[1, 2], [3, 4]], [[5], [6]], [[7], [8]], [[9], [10]])
    (by decide) (by decide)
